import Mathlib

/-!
# Verification of the `iska` PDF-splitting pipeline

A shallow embedding of `src/splitter.py` (marker extraction, client-document
grouping, group writing) and of the batch-printing loop of `src/print.py`,
with theorems settling the specification's claims.

Modelling conventions:
* a PDF page is a `Page`: an opaque handle (`pid`) together with the result of
  `page.extract_text()`, where `none` models the call raising an exception and
  `some t` models it returning the string `t`;
* the filesystem is an explicit `FS` value: a list of existing directories and
  an association list from file paths to file contents (the list of pages
  written into that file);
* fallibility of `open(output_path, "wb")` / `pdf_writer.write` is modelled by
  a write-failure oracle `wf : String → Bool` (`wf p = true` means writing to
  path `p` raises);
* Python's `\d` character class is modelled by `Char.isDigit`.
-/

/-- A PDF page: an opaque identity plus the outcome of `extract_text()`
(`none` = the call raises, `some t` = it returns `t`). -/
structure Page where
  pid : Nat
  text : Option String
deriving DecidableEq

/-- Embeds the `ClientDocument` class of `src/splitter.py` (lines 12-16). -/
structure ClientDocument where
  dz_code : String
  pages : List Page
  original_filename : String
deriving DecidableEq

/-- The filesystem state: existing directories and file contents
(path ↦ list of pages written into that file). -/
structure FS where
  dirs : List String
  files : List (String × List Page)
deriving DecidableEq

/-- `os.makedirs(d)` guarded by `os.path.exists(d)`: add the directory if
absent, leave the list unchanged if present. -/
def addDir (ds : List String) (d : String) : List String :=
  if d ∈ ds then ds else ds ++ [d]

/-- Writing file contents `v` at path `p`: overwrite the existing entry in
place, or append a new entry. -/
def setFile : List (String × List Page) → String → List Page → List (String × List Page)
  | [], p, v => [(p, v)]
  | (q, w) :: rest, p, v =>
      if q = p then (p, v) :: rest else (q, w) :: setFile rest p v

/-- Contents of the file at path `p`, if any. -/
def lookupFile : List (String × List Page) → String → Option (List Page)
  | [], _ => none
  | (q, w) :: rest, p => if q = p then some w else lookupFile rest p

/-- `os.path.basename` on a POSIX path, on the character list: the suffix
after the last `/`. -/
def basenameChars (cs : List Char) : List Char :=
  cs.foldl (fun acc c => if c = '/' then [] else acc ++ [c]) []

/-- Index of the last `.` in the character list, if any
(`p.rfind(extsep)` in `posixpath.splitext`). -/
def lastDotIdx (cs : List Char) : Option Nat :=
  (List.range cs.length).foldl
    (fun acc i => if cs.getD i ' ' = '.' then some i else acc) none

/-- The root part of `os.path.splitext` applied to a basename (a string with
no `/`): cut at the last dot, unless every character before it is a dot
(so that names made of leading dots keep their dots, as in `posixpath`). -/
def splitextRootChars (cs : List Char) : List Char :=
  match lastDotIdx cs with
  | none => cs
  | some d => if (cs.take d).all (fun c => c = '.') then cs else cs.take d

/-- `os.path.splitext(os.path.basename(p))[0]` of `src/splitter.py` line 43. -/
def baseFilename (p : String) : String :=
  String.mk (splitextRootChars (basenameChars p.toList))

/-- The marker-named subdirectory `os.path.join(output_dir, dz_code)`
(`src/splitter.py` line 37). -/
def dzDirectory (output_dir : String) (dz : String) : String :=
  output_dir ++ "/" ++ dz

/-- The output path composed by `save_client_document`
(`src/splitter.py` lines 43-45):
`<output_dir>/<dz_code>/<base>_<dz_code>.pdf`. -/
def outPath (output_dir : String) (doc : ClientDocument) : String :=
  dzDirectory output_dir doc.dz_code ++ "/"
    ++ (baseFilename doc.original_filename ++ "_" ++ doc.dz_code ++ ".pdf")

/-- Matching the regex `DZ(\d+)` anchored at the head of the character list:
literal `D`, literal `Z`, then a greedy non-empty run of decimal digits. -/
def matchDZHere (cs : List Char) : Option String :=
  match cs with
  | c1 :: c2 :: rest =>
      if c1 = 'D' ∧ c2 = 'Z' then
        let ds := rest.takeWhile Char.isDigit
        if ds = [] then none else some ("DZ" ++ String.mk ds)
      else none
  | _ => none

/-- `re.search(r"DZ(\d+)", ·)` on a character list: try each position from the
left, returning the first match. -/
def extractFromChars : List Char → Option String
  | [] => none
  | c :: rest =>
      match matchDZHere (c :: rest) with
      | some s => some s
      | none => extractFromChars rest

/-- Embeds `extract_dz_code` of `src/splitter.py` (lines 19-28): the first
occurrence of the pattern `DZ(\d+)` in the page text, rebuilt as
`"DZ" + match.group(1)`, or `none` when the regex does not match. -/
def extract_dz_code (text : String) : Option String :=
  extractFromChars text.toList

/-- The outcome of one `save_client_document` call: the filesystem afterwards,
whether the empty-pages warning fired, the path written (if any), and the
path whose write raised (if any). -/
structure SaveOutcome where
  fs : FS
  emptyWarn : Bool
  wrotePath : Option String
  err : Option String
deriving DecidableEq

/-- Embeds `save_client_document` of `src/splitter.py` (lines 31-56): return
at once (with a warning) on an empty page list; otherwise create the
marker-named directory if absent, compose the output path, and write all
pages there — the write raising exactly when the oracle `wf` says so. -/
def save_client_document (client_doc : ClientDocument) (output_dir : String)
    (wf : String → Bool) (fs : FS) : SaveOutcome :=
  if client_doc.pages = [] then
    { fs := fs, emptyWarn := true, wrotePath := none, err := none }
  else
    let d := dzDirectory output_dir client_doc.dz_code
    let fs1 : FS := { fs with dirs := addDir fs.dirs d }
    let p := outPath output_dir client_doc
    if wf p then
      { fs := fs1, emptyWarn := false, wrotePath := none, err := some p }
    else
      { fs := { fs1 with files := setFile fs1.files p client_doc.pages },
        emptyWarn := false, wrotePath := some p, err := none }

/-- Errors that abort a splitting run: a page's `extract_text()` raising, or
an output write raising inside `save_client_document`. -/
inductive SplitError where
  | extractFailed (pid : Nat)
  | writeFailed (path : String)
deriving DecidableEq

/-- The evolving state of a `split_pdf_by_dz` run: the filesystem, the open
accumulator (`current_client`), the documents passed to
`save_client_document` in flush order, the pages that drew the orphan
warning, and the count of empty-document warnings from the writer. -/
structure RunState where
  fs : FS
  current : Option ClientDocument
  flushed : List ClientDocument
  orphans : List Page
  emptyWarns : Nat
deriving DecidableEq

/-- One iteration of the page loop of `split_pdf_by_dz`
(`src/splitter.py` lines 75-93): extract the text (propagating a raise),
then on a marker flush any open document (propagating a write failure) and
open a fresh one seeded with this page; on no marker append to the open
document, or record the orphan warning when none is open. -/
def processPage (input_pdf_path output_dir : String) (wf : String → Bool)
    (st : RunState) (page : Page) : RunState × Option SplitError :=
  match page.text with
  | none => (st, some (.extractFailed page.pid))
  | some text =>
    match extract_dz_code text with
    | some dz =>
      match st.current with
      | some cur =>
          let o := save_client_document cur output_dir wf st.fs
          let st1 : RunState :=
            { st with
              fs := o.fs
              flushed := st.flushed ++ [cur]
              emptyWarns := st.emptyWarns + (if o.emptyWarn then 1 else 0) }
          match o.err with
          | some p => (st1, some (.writeFailed p))
          | none =>
              ({ st1 with
                 current := some ⟨dz, [page], input_pdf_path⟩ }, none)
      | none =>
          ({ st with current := some ⟨dz, [page], input_pdf_path⟩ }, none)
    | none =>
      match st.current with
      | some cur =>
          ({ st with
             current := some { cur with pages := cur.pages ++ [page] } }, none)
      | none => ({ st with orphans := st.orphans ++ [page] }, none)

/-- The page loop of `split_pdf_by_dz`: process pages in document order,
stopping at the first error. -/
def runPages (input_pdf_path output_dir : String) (wf : String → Bool) :
    List Page → RunState → RunState × Option SplitError
  | [], st => (st, none)
  | p :: rest, st =>
      match processPage input_pdf_path output_dir wf st p with
      | (st1, none) => runPages input_pdf_path output_dir wf rest st1
      | (st1, some e) => (st1, some e)

/-- The trailing flush of `split_pdf_by_dz` (lines 95-96): save the open
document, if any. -/
def finalFlush (output_dir : String) (wf : String → Bool)
    (st : RunState) : RunState × Option SplitError :=
  match st.current with
  | some cur =>
      let o := save_client_document cur output_dir wf st.fs
      ({ st with
         fs := o.fs
         flushed := st.flushed ++ [cur]
         emptyWarns := st.emptyWarns + (if o.emptyWarn then 1 else 0) },
       o.err.map .writeFailed)
  | none => (st, none)

/-- Run the page loop and, when it finishes without error, the trailing
flush. -/
def runAndFlush (input_pdf_path output_dir : String) (wf : String → Bool)
    (pages : List Page) (st : RunState) : RunState × Option SplitError :=
  match runPages input_pdf_path output_dir wf pages st with
  | (st1, none) => finalFlush output_dir wf st1
  | (st1, some e) => (st1, some e)

/-- The state at the top of `split_pdf_by_dz` (lines 62-64): the output root
created if absent, no open document, nothing flushed, no warnings. -/
def initState (output_dir : String) (fs : FS) : RunState :=
  { fs := { fs with dirs := addDir fs.dirs output_dir },
    current := none, flushed := [], orphans := [], emptyWarns := 0 }

/-- Embeds `split_pdf_by_dz` of `src/splitter.py` (lines 59-96), the input
document given as its page list. -/
def split_pdf_by_dz (input_pdf_path output_dir : String) (wf : String → Bool)
    (pages : List Page) (fs : FS) : RunState × Option SplitError :=
  runAndFlush input_pdf_path output_dir wf pages (initState output_dir fs)

/-- Whether the grouping pass sees a marker on this page: the text was
extracted and contains a `DZ` code. -/
def pageHasMarker (p : Page) : Bool :=
  match p.text with
  | some t => (extract_dz_code t).isSome
  | none => false

/-- Modelled from the spec's grouping contract, for comparison with the
code: each group is its marker page followed by the marker-less pages up to
(but not including) the next marker page or the end of input; marker-less
pages before the first marker belong to no group. -/
def specGroups (input_pdf_path : String) : List Page → List ClientDocument
  | [] => []
  | p :: rest =>
    match p.text with
    | some t =>
      match extract_dz_code t with
      | some dz =>
          ⟨dz, p :: rest.takeWhile (fun q => !pageHasMarker q),
            input_pdf_path⟩
            :: specGroups input_pdf_path
                 (rest.dropWhile (fun q => !pageHasMarker q))
      | none => specGroups input_pdf_path rest
    | none => specGroups input_pdf_path rest
termination_by pages => pages.length
decreasing_by
  all_goals simp only [List.length_cons]
  all_goals first
    | exact Nat.lt_succ_of_le ((List.dropWhile_sublist _).length_le)
    | exact Nat.lt_succ_self _

/-- The groups the spec predicts when a document `cur` is open on entry:
`cur` absorbs the leading marker-less pages and the remainder groups as from
scratch. -/
def specGroupsFrom (input_pdf_path : String) (cur : ClientDocument)
    (pages : List Page) : List ClientDocument :=
  { cur with pages := cur.pages ++ pages.takeWhile (fun q => !pageHasMarker q) }
    :: specGroups input_pdf_path (pages.dropWhile (fun q => !pageHasMarker q))

/-- Whether the pattern `DZ` followed by at least one decimal digit occurs at
position `i` of the character list. -/
def dzAt (cs : List Char) (i : Nat) : Bool :=
  match cs.drop i with
  | c1 :: c2 :: c3 :: _ => c1 == 'D' && c2 == 'Z' && c3.isDigit
  | _ => false

/-- Modelled from the spec's marker-extraction contract, for comparison with
the code: find the leftmost position where the two-letter prefix is followed
by a decimal digit, and return the prefix together with the maximal digit run
after it, or nothing when no position matches. -/
def specExtract (cs : List Char) : Option String :=
  match (List.range cs.length).find? (dzAt cs) with
  | none => none
  | some i => some ("DZ" ++ String.mk ((cs.drop (i + 2)).takeWhile Char.isDigit))

/-- Replay a list of file writes (path, contents) against a file table, in
order. -/
def applyWrites (f : List (String × List Page)) :
    List (String × List Page) → List (String × List Page)
  | [] => f
  | w :: ws => applyWrites (setFile f w.1 w.2) ws

/-- The last contents written to path `p` in a write list, if any. -/
def lastWrite (ws : List (String × List Page)) (p : String) : Option (List Page) :=
  ws.foldl (fun acc w => if w.1 = p then some w.2 else acc) none

/-- Replay a list of directory creations against a directory list. -/
def applyDirs (ds : List String) : List String → List String
  | [] => ds
  | e :: es => applyDirs (addDir ds e) es

/-- The file writes a list of flushed documents produces, in flush order. -/
def writesOf (output_dir : String) (gl : List ClientDocument) :
    List (String × List Page) :=
  gl.map (fun d => (outPath output_dir d, d.pages))

/-- The directories a list of flushed documents creates, in flush order. -/
def dirsOf (output_dir : String) (gl : List ClientDocument) : List String :=
  gl.map (fun d => dzDirectory output_dir d.dz_code)

/-! ## The batch-printing loop of `src/print.py`

The print backend (`lp` / win32 spooler) is a collaborator: it is modelled as
a function from a file path to `Except Unit Unit`, where `.error ()` stands
for any failure inside the `try` of `print_file` (a raised exception or a
non-zero return code) and `.ok ()` for a successful submission. The directory
tree under the base directory is given as a listing: folder names paired with
their file entries. Sleeping is modelled by counting the `time.sleep(3)`
calls. -/

/-- `f.lower().endswith(".pdf")` of `src/print.py` line 177. -/
def isPdfName (s : String) : Bool := (s.toLower).endsWith ".pdf"

/-- Insert a string into a sorted list (ascending). -/
def insertStr (s : String) : List String → List String
  | [] => [s]
  | t :: rest => if s ≤ t then s :: t :: rest else t :: insertStr s rest

/-- Python's `sorted` on a list of strings, as insertion sort. -/
def sortStrs (l : List String) : List String := l.foldr insertStr []

/-- Insert a (folder, entries) pair into a list sorted by folder name. -/
def insertEntry (d : String × List String) :
    List (String × List String) → List (String × List String)
  | [] => [d]
  | e :: rest => if d.1 ≤ e.1 then d :: e :: rest else e :: insertEntry d rest

/-- Python's `sorted` over the folder listing, by folder name. -/
def sortEntries (l : List (String × List String)) : List (String × List String) :=
  l.foldr insertEntry []

/-- `os.path.join` as used throughout `src/print.py`. -/
def joinPath (a b : String) : String := a ++ "/" ++ b

/-- Embeds `PrinterSystem.print_file` of `src/print.py` (lines 89-114): every
failure of the backend is caught and turned into `false`; a successful
submission returns `true`. The function is total — it never propagates an
error. -/
def print_file (backend : String → Except Unit Unit) (file_path : String) : Bool :=
  match backend file_path with
  | .ok _ => true
  | .error _ => false

/-- The aggregate outcome of `print_pdfs_in_folders`: the file paths submitted
in order, the success counter, the collected failed paths reported in the
final summary, and the number of `time.sleep(3)` calls. -/
structure PrintResult where
  attempted : List String
  total_printed : Nat
  failed_prints : List String
  sleeps : Nat
deriving DecidableEq

/-- The body of the inner loop of `print_pdfs_in_folders`
(`src/print.py` lines 184-195): submit one file, count a success or collect a
failure, then sleep. -/
def printOne (backend : String → Except Unit Unit) (folder_path : String)
    (acc : PrintResult) (f : String) : PrintResult :=
  let pdf_path := joinPath folder_path f
  let acc1 :=
    if print_file backend pdf_path then
      { acc with
        attempted := acc.attempted ++ [pdf_path]
        total_printed := acc.total_printed + 1 }
    else
      { acc with
        attempted := acc.attempted ++ [pdf_path]
        failed_prints := acc.failed_prints ++ [pdf_path] }
  { acc1 with sleeps := acc1.sleeps + 1 }

/-- Embeds `print_pdfs_in_folders` of `src/print.py` (lines 151-204): walk the
folders in sorted name order, and within each folder submit its `.pdf` files
in sorted order, one print job per file. -/
def print_pdfs_in_folders (base_directory : String)
    (listing : List (String × List String))
    (backend : String → Except Unit Unit) : PrintResult :=
  (sortEntries listing).foldl
    (fun acc d =>
      let folder_path := joinPath base_directory d.1
      let pdf_files := sortStrs (d.2.filter isPdfName)
      pdf_files.foldl (printOne backend folder_path) acc)
    ⟨[], 0, [], 0⟩

/-- Every `.pdf` path under the base directory, in sorted folder then sorted
filename order — independent of any print outcome. -/
def specAllPdfPaths (base_directory : String)
    (listing : List (String × List String)) : List String :=
  ((sortEntries listing).map
    (fun d => (sortStrs (d.2.filter isPdfName)).map
      (joinPath (joinPath base_directory d.1)))).flatten

/-! ## Basic facts about the filesystem model and the group writer -/

theorem lookupFile_setFile_self (f : List (String × List Page)) (p : String)
    (v : List Page) : lookupFile (setFile f p v) p = some v := by
  induction f with
  | nil => simp [setFile, lookupFile]
  | cons e rest ih =>
      by_cases h : e.1 = p
      · simp [setFile, lookupFile, h]
      · simp [setFile, lookupFile, h, ih]

theorem lookupFile_setFile_other (f : List (String × List Page)) (p : String)
    (v : List Page) (q : String) (h : q ≠ p) :
    lookupFile (setFile f p v) q = lookupFile f q := by
  induction f with
  | nil =>
      show (if p = q then some v else none) = none
      rw [if_neg fun hh => h hh.symm]
  | cons e rest ih =>
      by_cases h1 : e.1 = p
      · subst h1
        simp [setFile, lookupFile, Ne.symm h, h]
      · simp [setFile, lookupFile, h1, ih, h]

theorem save_eq_of_ok (doc : ClientDocument) (dir : String) (wf : String → Bool)
    (fs : FS) (hne : doc.pages ≠ []) (hwf : wf (outPath dir doc) = false) :
    save_client_document doc dir wf fs =
      ⟨⟨addDir fs.dirs (dzDirectory dir doc.dz_code),
        setFile fs.files (outPath dir doc) doc.pages⟩,
       false, some (outPath dir doc), none⟩ := by
  simp [save_client_document, hne, hwf]

theorem save_eq_of_fail (doc : ClientDocument) (dir : String) (wf : String → Bool)
    (fs : FS) (hne : doc.pages ≠ []) (hwf : wf (outPath dir doc) = true) :
    save_client_document doc dir wf fs =
      ⟨⟨addDir fs.dirs (dzDirectory dir doc.dz_code), fs.files⟩,
       false, none, some (outPath dir doc)⟩ := by
  simp [save_client_document, hne, hwf]

/-- Claim C9: calling the group writer on a document with an empty pages list
logs the warning and returns at once: no error, no directory created, no file
written, the filesystem untouched. -/
theorem C9_save_empty_is_silent_noop (client_doc : ClientDocument)
    (output_dir : String) (wf : String → Bool) (fs : FS)
    (h : client_doc.pages = []) :
    save_client_document client_doc output_dir wf fs =
      { fs := fs, emptyWarn := true, wrotePath := none, err := none } := by
  unfold save_client_document
  rw [if_pos h]

theorem C9_witness :
    (⟨"DZ1", [], "in.pdf"⟩ : ClientDocument).pages = [] ∧
    save_client_document ⟨"DZ1", [], "in.pdf"⟩ "out" (fun _ => false)
        ⟨["d"], [("f", [])]⟩ =
      { fs := ⟨["d"], [("f", [])]⟩, emptyWarn := true, wrotePath := none,
        err := none } :=
  ⟨rfl, C9_save_empty_is_silent_noop _ _ _ _ rfl⟩

/-- Claim C5: flushing a non-empty group (with a write that does not fail)
creates the marker subdirectory exactly when absent, composes the path
`<output_root>/<marker>/<source-base-name>_<marker>.pdf`, writes the group's
pages in order at that single path — overwriting any previous contents — and
leaves every other path untouched. -/
theorem C5_save_layout_and_overwrite (client_doc : ClientDocument)
    (output_dir : String) (wf : String → Bool) (fs : FS)
    (hne : client_doc.pages ≠ [])
    (hwf : wf (outPath output_dir client_doc) = false) :
    (save_client_document client_doc output_dir wf fs).err = none ∧
    (save_client_document client_doc output_dir wf fs).emptyWarn = false ∧
    (dzDirectory output_dir client_doc.dz_code ∈ fs.dirs →
      (save_client_document client_doc output_dir wf fs).fs.dirs = fs.dirs) ∧
    (dzDirectory output_dir client_doc.dz_code ∉ fs.dirs →
      (save_client_document client_doc output_dir wf fs).fs.dirs =
        fs.dirs ++ [dzDirectory output_dir client_doc.dz_code]) ∧
    (save_client_document client_doc output_dir wf fs).wrotePath =
      some (outPath output_dir client_doc) ∧
    outPath output_dir client_doc =
      output_dir ++ "/" ++ client_doc.dz_code ++ "/"
        ++ (baseFilename client_doc.original_filename ++ "_"
            ++ client_doc.dz_code ++ ".pdf") ∧
    lookupFile (save_client_document client_doc output_dir wf fs).fs.files
        (outPath output_dir client_doc) = some client_doc.pages ∧
    ∀ q, q ≠ outPath output_dir client_doc →
      lookupFile (save_client_document client_doc output_dir wf fs).fs.files q =
        lookupFile fs.files q := by
  rw [save_eq_of_ok client_doc output_dir wf fs hne hwf]
  refine ⟨rfl, rfl, ?_, ?_, rfl, rfl, ?_, ?_⟩
  · intro hmem
    simp [addDir, hmem]
  · intro hmem
    simp [addDir, hmem]
  · exact lookupFile_setFile_self _ _ _
  · intro q hq
    exact lookupFile_setFile_other _ _ _ _ hq

theorem C5_witness :
    (⟨"DZ9", [⟨0, some "DZ9"⟩], "dir/in.pdf"⟩ : ClientDocument).pages ≠ [] ∧
    (fun _ => false : String → Bool)
        (outPath "out" ⟨"DZ9", [⟨0, some "DZ9"⟩], "dir/in.pdf"⟩) = false ∧
    lookupFile
      (save_client_document ⟨"DZ9", [⟨0, some "DZ9"⟩], "dir/in.pdf"⟩ "out"
          (fun _ => false)
          ⟨[], [("out/DZ9/in_DZ9.pdf", [⟨7, none⟩])]⟩).fs.files
      (outPath "out" ⟨"DZ9", [⟨0, some "DZ9"⟩], "dir/in.pdf"⟩) =
      some [⟨0, some "DZ9"⟩] :=
  ⟨by decide, rfl,
    (C5_save_layout_and_overwrite _ _ _ _ (by decide) rfl).2.2.2.2.2.2.1⟩

/-! ## Marker extraction agrees with the leftmost-match specification -/

theorem dzAt_succ (c : Char) (cs : List Char) (i : Nat) :
    dzAt (c :: cs) (i + 1) = dzAt cs i := rfl

theorem dzAt_of_le_length (cs : List Char) (i : Nat) (h : cs.length ≤ i) :
    dzAt cs i = false := by
  unfold dzAt
  rw [List.drop_eq_nil_of_le h]

theorem matchDZHere_spec (cs : List Char) :
    matchDZHere cs =
      if dzAt cs 0 then
        some ("DZ" ++ String.mk ((cs.drop 2).takeWhile Char.isDigit))
      else none := by
  match cs with
  | [] => rfl
  | [c] => rfl
  | [c1, c2] =>
      by_cases hDZ : c1 = 'D' ∧ c2 = 'Z' <;> simp [matchDZHere, dzAt, hDZ]
  | c1 :: c2 :: c3 :: rest =>
      by_cases hD : c1 = 'D'
      · by_cases hZ : c2 = 'Z'
        · subst hD; subst hZ
          by_cases hd : c3.isDigit <;>
            simp [matchDZHere, dzAt, hd]
        · simp [matchDZHere, dzAt, hD, hZ]
      · simp [matchDZHere, dzAt, hD]

theorem extractFromChars_eq_specExtract (cs : List Char) :
    extractFromChars cs = specExtract cs := by
  induction cs with
  | nil => rfl
  | cons c rest ih =>
      have hcomp : (dzAt (c :: rest) ∘ Nat.succ) = dzAt rest :=
        funext fun i => dzAt_succ c rest i
      by_cases h0 : dzAt (c :: rest) 0
      · have hm : matchDZHere (c :: rest) =
            some ("DZ" ++ String.mk (((c :: rest).drop 2).takeWhile Char.isDigit)) := by
          rw [matchDZHere_spec, if_pos h0]
        simp only [extractFromChars, hm]
        unfold specExtract
        rw [List.length_cons, List.range_succ_eq_map,
            List.find?_cons_of_pos _ h0]
      · have hm : matchDZHere (c :: rest) = none := by
          rw [matchDZHere_spec, if_neg (by simp [h0])]
        simp only [extractFromChars, hm, ih]
        unfold specExtract
        rw [List.length_cons, List.range_succ_eq_map,
            List.find?_cons_of_neg _ (by simp [h0]),
            List.find?_map, hcomp]
        cases hf : (List.range rest.length).find? (dzAt rest) with
        | none => rfl
        | some i => simp

theorem extractFromChars_eq_none_iff (cs : List Char) :
    extractFromChars cs = none ↔ ∀ i, dzAt cs i = false := by
  rw [extractFromChars_eq_specExtract]
  unfold specExtract
  cases hf : (List.range cs.length).find? (dzAt cs) with
  | none =>
      simp only []
      constructor
      · intro _ i
        by_cases hi : i < cs.length
        · have := List.find?_eq_none.mp hf i (List.mem_range.mpr hi)
          simpa using this
        · exact dzAt_of_le_length cs i (by omega)
      · intro _
        trivial
  | some i =>
      simp only []
      constructor
      · intro h
        cases h
      · intro hall
        have hmem := List.find?_some hf
        rw [hall i] at hmem
        cases hmem

/-- Claim C2: `extract_dz_code` returns exactly the leftmost occurrence of the
literal prefix `DZ` followed by a maximal non-empty run of decimal digits
(`specExtract`, written from the spec's contract), and returns `none`
precisely when no position of the text matches the pattern; determinism (at
most one marker per page) and case-sensitivity of the prefix are immediate
from the equation. -/
theorem C2_extract_is_leftmost_dz_digits_match (s : String) :
    extract_dz_code s = specExtract s.toList ∧
    (extract_dz_code s = none ↔ ∀ i, dzAt s.toList i = false) :=
  ⟨extractFromChars_eq_specExtract s.toList,
   extractFromChars_eq_none_iff s.toList⟩

/-! ## Stepping lemmas for the grouping pass -/

theorem pageHasMarker_true_of (p : Page) (t : String) (dz : String)
    (ht : p.text = some t) (hdz : extract_dz_code t = some dz) :
    pageHasMarker p = true := by
  unfold pageHasMarker
  rw [ht]
  show (extract_dz_code t).isSome = true
  rw [hdz]
  rfl

theorem pageHasMarker_false_of (p : Page) (t : String)
    (ht : p.text = some t) (hdz : extract_dz_code t = none) :
    pageHasMarker p = false := by
  unfold pageHasMarker
  rw [ht]
  show (extract_dz_code t).isSome = false
  rw [hdz]
  rfl

theorem runPages_nil (path dir : String) (wf : String → Bool) (st : RunState) :
    runPages path dir wf [] st = (st, none) := rfl

theorem runPages_cons (path dir : String) (wf : String → Bool)
    (p : Page) (pages : List Page) (st : RunState) :
    runPages path dir wf (p :: pages) st =
      match processPage path dir wf st p with
      | (st1, none) => runPages path dir wf pages st1
      | (st1, some e) => (st1, some e) := rfl

theorem runAndFlush_cons (path dir : String) (wf : String → Bool)
    (p : Page) (pages : List Page) (st : RunState) :
    runAndFlush path dir wf (p :: pages) st =
      match processPage path dir wf st p with
      | (st1, none) => runAndFlush path dir wf pages st1
      | (st1, some e) => (st1, some e) := by
  unfold runAndFlush
  rw [runPages_cons]
  rcases hp : processPage path dir wf st p with ⟨st1, oe⟩
  cases oe with
  | none => rfl
  | some e => rfl

theorem runPages_append (path dir : String) (wf : String → Bool) :
    ∀ (a b : List Page) (st : RunState),
      runPages path dir wf (a ++ b) st =
        match runPages path dir wf a st with
        | (st1, none) => runPages path dir wf b st1
        | (st1, some e) => (st1, some e) := by
  intro a
  induction a with
  | nil =>
      intro b st
      rfl
  | cons p rest ih =>
      intro b st
      rw [List.cons_append, runPages_cons, runPages_cons]
      rcases hp : processPage path dir wf st p with ⟨st1, oe⟩
      cases oe with
      | none => exact ih b st1
      | some e => rfl

theorem processPage_extract_none (path dir : String) (wf : String → Bool)
    (st : RunState) (page : Page) (ht : page.text = none) :
    processPage path dir wf st page = (st, some (.extractFailed page.pid)) := by
  unfold processPage
  rw [ht]

theorem processPage_marker_open (path dir : String) (wf : String → Bool)
    (st : RunState) (page : Page) (cur : ClientDocument) (t dz : String)
    (hc : st.current = some cur) (hne : cur.pages ≠ [])
    (hwfc : wf (outPath dir cur) = false)
    (ht : page.text = some t) (hdz : extract_dz_code t = some dz) :
    processPage path dir wf st page =
      ({ st with
         fs := ⟨addDir st.fs.dirs (dzDirectory dir cur.dz_code),
               setFile st.fs.files (outPath dir cur) cur.pages⟩
         flushed := st.flushed ++ [cur]
         current := some ⟨dz, [page], path⟩ }, none) := by
  unfold processPage
  rw [ht]
  simp only [hdz, hc, save_eq_of_ok cur dir wf st.fs hne hwfc]
  simp

theorem processPage_marker_open_fail (path dir : String) (wf : String → Bool)
    (st : RunState) (page : Page) (cur : ClientDocument) (t dz : String)
    (hc : st.current = some cur) (hne : cur.pages ≠ [])
    (hwfc : wf (outPath dir cur) = true)
    (ht : page.text = some t) (hdz : extract_dz_code t = some dz) :
    processPage path dir wf st page =
      ({ st with
         fs := ⟨addDir st.fs.dirs (dzDirectory dir cur.dz_code), st.fs.files⟩
         flushed := st.flushed ++ [cur] },
       some (.writeFailed (outPath dir cur))) := by
  unfold processPage
  rw [ht]
  simp only [hdz, hc, save_eq_of_fail cur dir wf st.fs hne hwfc]
  simp

theorem processPage_marker_closed (path dir : String) (wf : String → Bool)
    (st : RunState) (page : Page) (t dz : String)
    (hc : st.current = none)
    (ht : page.text = some t) (hdz : extract_dz_code t = some dz) :
    processPage path dir wf st page =
      ({ st with current := some ⟨dz, [page], path⟩ }, none) := by
  unfold processPage
  rw [ht]
  simp only [hdz, hc]

theorem processPage_nomarker_open (path dir : String) (wf : String → Bool)
    (st : RunState) (page : Page) (cur : ClientDocument) (t : String)
    (hc : st.current = some cur)
    (ht : page.text = some t) (hdz : extract_dz_code t = none) :
    processPage path dir wf st page =
      ({ st with
         current := some { cur with pages := cur.pages ++ [page] } }, none) := by
  unfold processPage
  rw [ht]
  simp only [hdz, hc]

theorem processPage_nomarker_closed (path dir : String) (wf : String → Bool)
    (st : RunState) (page : Page) (t : String)
    (hc : st.current = none)
    (ht : page.text = some t) (hdz : extract_dz_code t = none) :
    processPage path dir wf st page =
      ({ st with orphans := st.orphans ++ [page] }, none) := by
  unfold processPage
  rw [ht]
  simp only [hdz, hc]

theorem finalFlush_closed (dir : String) (wf : String → Bool) (st : RunState)
    (hc : st.current = none) : finalFlush dir wf st = (st, none) := by
  unfold finalFlush
  rw [hc]

theorem finalFlush_open_ok (dir : String) (wf : String → Bool) (st : RunState)
    (cur : ClientDocument) (hc : st.current = some cur) (hne : cur.pages ≠ [])
    (hwfc : wf (outPath dir cur) = false) :
    finalFlush dir wf st =
      ({ st with
         fs := ⟨addDir st.fs.dirs (dzDirectory dir cur.dz_code),
               setFile st.fs.files (outPath dir cur) cur.pages⟩
         flushed := st.flushed ++ [cur] }, none) := by
  unfold finalFlush
  rw [hc]
  simp only [save_eq_of_ok cur dir wf st.fs hne hwfc]
  simp

theorem finalFlush_open_fail (dir : String) (wf : String → Bool)
    (st : RunState) (cur : ClientDocument) (hc : st.current = some cur)
    (hne : cur.pages ≠ []) (hwfc : wf (outPath dir cur) = true) :
    finalFlush dir wf st =
      ({ st with
         fs := ⟨addDir st.fs.dirs (dzDirectory dir cur.dz_code), st.fs.files⟩
         flushed := st.flushed ++ [cur] },
       some (.writeFailed (outPath dir cur))) := by
  unfold finalFlush
  rw [hc]
  simp only [save_eq_of_fail cur dir wf st.fs hne hwfc]
  simp

/-! ## The spec grouping on a cons -/

theorem specGroups_cons_marker (path : String) (p : Page) (rest : List Page)
    (t dz : String) (ht : p.text = some t) (hdz : extract_dz_code t = some dz) :
    specGroups path (p :: rest) =
      ⟨dz, p :: rest.takeWhile (fun q => !pageHasMarker q), path⟩
        :: specGroups path (rest.dropWhile (fun q => !pageHasMarker q)) := by
  rw [specGroups, ht]
  simp only [hdz]

theorem specGroups_cons_nomarker (path : String) (p : Page) (rest : List Page)
    (t : String) (ht : p.text = some t) (hdz : extract_dz_code t = none) :
    specGroups path (p :: rest) = specGroups path rest := by
  rw [specGroups, ht]
  simp only [hdz]

theorem specGroupsFrom_cons_marker (path : String) (cur : ClientDocument)
    (p : Page) (rest : List Page) (t dz : String)
    (ht : p.text = some t) (hdz : extract_dz_code t = some dz) :
    specGroupsFrom path cur (p :: rest) =
      cur :: specGroupsFrom path ⟨dz, [p], path⟩ rest := by
  have hm : pageHasMarker p = true := pageHasMarker_true_of p t dz ht hdz
  unfold specGroupsFrom
  rw [List.takeWhile_cons_of_neg (by simp [hm]),
      List.dropWhile_cons_of_neg (by simp [hm]),
      List.append_nil,
      specGroups_cons_marker path p rest t dz ht hdz]
  rfl

theorem specGroupsFrom_cons_nomarker (path : String) (cur : ClientDocument)
    (p : Page) (rest : List Page) (t : String)
    (ht : p.text = some t) (hdz : extract_dz_code t = none) :
    specGroupsFrom path cur (p :: rest) =
      specGroupsFrom path { cur with pages := cur.pages ++ [p] } rest := by
  have hm : pageHasMarker p = false := pageHasMarker_false_of p t ht hdz
  unfold specGroupsFrom
  rw [List.takeWhile_cons_of_pos (by simp [hm]),
      List.dropWhile_cons_of_pos (by simp [hm]),
      List.append_cons]

/-! ## Characterizing a failure-free run -/

theorem runAndFlush_open (path dir : String) (wf : String → Bool)
    (hwf : ∀ q, wf q = false) :
    ∀ (pages : List Page) (st : RunState) (cur : ClientDocument),
      st.current = some cur → cur.pages ≠ [] →
      (∀ p ∈ pages, p.text ≠ none) →
      (runAndFlush path dir wf pages st).2 = none ∧
      (runAndFlush path dir wf pages st).1.flushed =
        st.flushed ++ specGroupsFrom path cur pages ∧
      (runAndFlush path dir wf pages st).1.orphans = st.orphans ∧
      (runAndFlush path dir wf pages st).1.emptyWarns = st.emptyWarns ∧
      (runAndFlush path dir wf pages st).1.fs.files =
        applyWrites st.fs.files (writesOf dir (specGroupsFrom path cur pages)) ∧
      (runAndFlush path dir wf pages st).1.fs.dirs =
        applyDirs st.fs.dirs (dirsOf dir (specGroupsFrom path cur pages)) := by
  intro pages
  induction pages with
  | nil =>
      intro st cur hc hne _
      have h1 : runAndFlush path dir wf [] st = finalFlush dir wf st := rfl
      rw [h1, finalFlush_open_ok dir wf st cur hc hne (hwf _)]
      refine ⟨rfl, ?_, rfl, rfl, ?_, ?_⟩ <;>
        simp [specGroupsFrom, specGroups, writesOf, dirsOf, applyWrites,
          applyDirs]
  | cons p rest ih =>
      intro st cur hc hne hread
      cases htx : p.text with
      | none => exact absurd htx (hread p (List.mem_cons_self p rest))
      | some t =>
        have hread' : ∀ q ∈ rest, q.text ≠ none :=
          fun q hq => hread q (List.mem_cons_of_mem p hq)
        cases hdz : extract_dz_code t with
        | some dz =>
            have hrun : runAndFlush path dir wf (p :: rest) st =
                runAndFlush path dir wf rest
                  { st with
                    fs := ⟨addDir st.fs.dirs (dzDirectory dir cur.dz_code),
                          setFile st.fs.files (outPath dir cur) cur.pages⟩
                    flushed := st.flushed ++ [cur]
                    current := some ⟨dz, [p], path⟩ } := by
              rw [runAndFlush_cons,
                  processPage_marker_open path dir wf st p cur t dz hc hne
                    (hwf _) htx hdz]
            rw [hrun, specGroupsFrom_cons_marker path cur p rest t dz htx hdz]
            have IH := ih
              { st with
                fs := ⟨addDir st.fs.dirs (dzDirectory dir cur.dz_code),
                      setFile st.fs.files (outPath dir cur) cur.pages⟩
                flushed := st.flushed ++ [cur]
                current := some ⟨dz, [p], path⟩ }
              ⟨dz, [p], path⟩ rfl (by simp) hread'
            refine ⟨IH.1, ?_, IH.2.2.1, IH.2.2.2.1, ?_, ?_⟩
            · rw [IH.2.1]
              simp
            · rw [IH.2.2.2.2.1]
              rfl
            · rw [IH.2.2.2.2.2]
              rfl
        | none =>
            have hrun : runAndFlush path dir wf (p :: rest) st =
                runAndFlush path dir wf rest
                  { st with
                    current := some { cur with pages := cur.pages ++ [p] } } := by
              rw [runAndFlush_cons,
                  processPage_nomarker_open path dir wf st p cur t hc htx hdz]
            rw [hrun, specGroupsFrom_cons_nomarker path cur p rest t htx hdz]
            exact ih
              { st with current := some { cur with pages := cur.pages ++ [p] } }
              { cur with pages := cur.pages ++ [p] } rfl (by simp) hread'

theorem runAndFlush_closed (path dir : String) (wf : String → Bool)
    (hwf : ∀ q, wf q = false) :
    ∀ (pages : List Page) (st : RunState),
      st.current = none →
      (∀ p ∈ pages, p.text ≠ none) →
      (runAndFlush path dir wf pages st).2 = none ∧
      (runAndFlush path dir wf pages st).1.flushed =
        st.flushed ++ specGroups path pages ∧
      (runAndFlush path dir wf pages st).1.orphans =
        st.orphans ++ pages.takeWhile (fun q => !pageHasMarker q) ∧
      (runAndFlush path dir wf pages st).1.emptyWarns = st.emptyWarns ∧
      (runAndFlush path dir wf pages st).1.fs.files =
        applyWrites st.fs.files (writesOf dir (specGroups path pages)) ∧
      (runAndFlush path dir wf pages st).1.fs.dirs =
        applyDirs st.fs.dirs (dirsOf dir (specGroups path pages)) := by
  intro pages
  induction pages with
  | nil =>
      intro st hc _
      have h1 : runAndFlush path dir wf [] st = finalFlush dir wf st := rfl
      rw [h1, finalFlush_closed dir wf st hc]
      refine ⟨rfl, ?_, ?_, rfl, ?_, ?_⟩ <;>
        simp [specGroups, writesOf, dirsOf, applyWrites, applyDirs]
  | cons p rest ih =>
      intro st hc hread
      cases htx : p.text with
      | none => exact absurd htx (hread p (List.mem_cons_self p rest))
      | some t =>
        have hread' : ∀ q ∈ rest, q.text ≠ none :=
          fun q hq => hread q (List.mem_cons_of_mem p hq)
        cases hdz : extract_dz_code t with
        | some dz =>
            have hm : pageHasMarker p = true :=
              pageHasMarker_true_of p t dz htx hdz
            have hrun : runAndFlush path dir wf (p :: rest) st =
                runAndFlush path dir wf rest
                  { st with current := some ⟨dz, [p], path⟩ } := by
              rw [runAndFlush_cons,
                  processPage_marker_closed path dir wf st p t dz hc htx hdz]
            rw [hrun, specGroups_cons_marker path p rest t dz htx hdz,
                List.takeWhile_cons_of_neg (by simp [hm])]
            have H := runAndFlush_open path dir wf hwf rest
              { st with current := some ⟨dz, [p], path⟩ }
              ⟨dz, [p], path⟩ rfl (by simp) hread'
            refine ⟨H.1, ?_, ?_, H.2.2.2.1, ?_, ?_⟩
            · rw [H.2.1]
              rfl
            · rw [H.2.2.1]
              simp
            · rw [H.2.2.2.2.1]
              rfl
            · rw [H.2.2.2.2.2]
              rfl
        | none =>
            have hm : pageHasMarker p = false :=
              pageHasMarker_false_of p t htx hdz
            have hrun : runAndFlush path dir wf (p :: rest) st =
                runAndFlush path dir wf rest
                  { st with orphans := st.orphans ++ [p] } := by
              rw [runAndFlush_cons,
                  processPage_nomarker_closed path dir wf st p t hc htx hdz]
            rw [hrun, specGroups_cons_nomarker path p rest t htx hdz,
                List.takeWhile_cons_of_pos (by simp [hm])]
            have IH := ih { st with orphans := st.orphans ++ [p] } hc hread'
            refine ⟨IH.1, IH.2.1, ?_, IH.2.2.2.1, IH.2.2.2.2.1, IH.2.2.2.2.2⟩
            rw [IH.2.2.1]
            simp

theorem specGroups_cons_unreadable (path : String) (p : Page)
    (rest : List Page) (ht : p.text = none) :
    specGroups path (p :: rest) = specGroups path rest := by
  rw [specGroups, ht]

theorem countP_marker_dropWhile (rest : List Page) :
    (rest.dropWhile (fun q => !pageHasMarker q)).countP pageHasMarker =
      rest.countP pageHasMarker := by
  conv_rhs => rw [← List.takeWhile_append_dropWhile
    (p := fun q => !pageHasMarker q) (l := rest)]
  rw [List.countP_append]
  have h0 : (rest.takeWhile (fun q => !pageHasMarker q)).countP pageHasMarker
      = 0 := by
    rw [List.countP_eq_zero]
    intro a ha
    have := List.mem_takeWhile_imp ha
    simp at this
    simp [this]
  omega

theorem specGroups_length_aux (path : String) :
    ∀ (n : Nat) (pages : List Page), pages.length ≤ n →
      (specGroups path pages).length = pages.countP pageHasMarker := by
  intro n
  induction n with
  | zero =>
      intro pages hl
      have : pages = [] := List.eq_nil_of_length_eq_zero (Nat.le_zero.mp hl)
      subst this
      simp [specGroups]
  | succ n ih =>
      intro pages hl
      match pages with
      | [] => simp [specGroups]
      | p :: rest =>
          rw [List.length_cons] at hl
          cases htx : p.text with
          | none =>
              rw [specGroups_cons_unreadable path p rest htx,
                  List.countP_cons_of_neg _ _
                    (by simp [pageHasMarker, htx]),
                  ih rest (by omega)]
          | some t =>
              cases hdz : extract_dz_code t with
              | some dz =>
                  have hm := pageHasMarker_true_of p t dz htx hdz
                  rw [specGroups_cons_marker path p rest t dz htx hdz,
                      List.length_cons,
                      List.countP_cons_of_pos _ _ (by simp [hm]),
                      ih (rest.dropWhile (fun q => !pageHasMarker q))
                        (by
                          have := (List.dropWhile_sublist
                            (l := rest) (fun q => !pageHasMarker q)).length_le
                          omega),
                      countP_marker_dropWhile]
              | none =>
                  have hm := pageHasMarker_false_of p t htx hdz
                  rw [specGroups_cons_nomarker path p rest t htx hdz,
                      List.countP_cons_of_neg _ _ (by simp [hm]),
                      ih rest (by omega)]

theorem specGroups_length (path : String) (pages : List Page) :
    (specGroups path pages).length = pages.countP pageHasMarker :=
  specGroups_length_aux path pages.length pages (Nat.le_refl _)

/-- Claim C1: on a run where every page's text extraction succeeds and no
write fails, the sequence of flushed groups is exactly the spec grouping
(each group = its marker page followed by the marker-less pages up to the
next marker or the end of input), the number of groups equals the number of
marker pages, the pages warned about and dropped as orphans are exactly the
marker-less prefix before the first marker (one warning per page, and they
appear in no group by the grouping equation), and the run ends without
error. -/
theorem C1_groups_are_marker_delimited (path dir : String)
    (wf : String → Bool) (pages : List Page) (fs : FS)
    (hwf : ∀ q, wf q = false)
    (hread : ∀ p ∈ pages, p.text ≠ none) :
    (split_pdf_by_dz path dir wf pages fs).2 = none ∧
    (split_pdf_by_dz path dir wf pages fs).1.flushed = specGroups path pages ∧
    (specGroups path pages).length = pages.countP pageHasMarker ∧
    (split_pdf_by_dz path dir wf pages fs).1.orphans =
      pages.takeWhile (fun q => !pageHasMarker q) ∧
    (split_pdf_by_dz path dir wf pages fs).1.emptyWarns = 0 := by
  have H := runAndFlush_closed path dir wf hwf pages (initState dir fs) rfl hread
  exact ⟨H.1, H.2.1, specGroups_length path pages, H.2.2.1, H.2.2.2.1⟩

theorem C1_witness :
    (∀ p ∈ ([⟨0, some "x"⟩, ⟨1, some "DZ100 a"⟩, ⟨2, some "c"⟩,
             ⟨3, some "DZ200"⟩, ⟨4, some "e"⟩] : List Page), p.text ≠ none) ∧
    ((split_pdf_by_dz "in.pdf" "out" (fun _ => false)
        [⟨0, some "x"⟩, ⟨1, some "DZ100 a"⟩, ⟨2, some "c"⟩,
         ⟨3, some "DZ200"⟩, ⟨4, some "e"⟩] ⟨[], []⟩).2 = none ∧
     (split_pdf_by_dz "in.pdf" "out" (fun _ => false)
        [⟨0, some "x"⟩, ⟨1, some "DZ100 a"⟩, ⟨2, some "c"⟩,
         ⟨3, some "DZ200"⟩, ⟨4, some "e"⟩] ⟨[], []⟩).1.flushed =
       specGroups "in.pdf"
         [⟨0, some "x"⟩, ⟨1, some "DZ100 a"⟩, ⟨2, some "c"⟩,
          ⟨3, some "DZ200"⟩, ⟨4, some "e"⟩] ∧
     (specGroups "in.pdf"
         [⟨0, some "x"⟩, ⟨1, some "DZ100 a"⟩, ⟨2, some "c"⟩,
          ⟨3, some "DZ200"⟩, ⟨4, some "e"⟩]).length =
       ([⟨0, some "x"⟩, ⟨1, some "DZ100 a"⟩, ⟨2, some "c"⟩,
         ⟨3, some "DZ200"⟩, ⟨4, some "e"⟩] : List Page).countP pageHasMarker ∧
     (split_pdf_by_dz "in.pdf" "out" (fun _ => false)
        [⟨0, some "x"⟩, ⟨1, some "DZ100 a"⟩, ⟨2, some "c"⟩,
         ⟨3, some "DZ200"⟩, ⟨4, some "e"⟩] ⟨[], []⟩).1.orphans =
       ([⟨0, some "x"⟩, ⟨1, some "DZ100 a"⟩, ⟨2, some "c"⟩,
         ⟨3, some "DZ200"⟩, ⟨4, some "e"⟩] : List Page).takeWhile
         (fun q => !pageHasMarker q) ∧
     (split_pdf_by_dz "in.pdf" "out" (fun _ => false)
        [⟨0, some "x"⟩, ⟨1, some "DZ100 a"⟩, ⟨2, some "c"⟩,
         ⟨3, some "DZ200"⟩, ⟨4, some "e"⟩] ⟨[], []⟩).1.emptyWarns = 0) :=
  ⟨by decide,
   C1_groups_are_marker_delimited "in.pdf" "out" (fun _ => false)
     [⟨0, some "x"⟩, ⟨1, some "DZ100 a"⟩, ⟨2, some "c"⟩,
      ⟨3, some "DZ200"⟩, ⟨4, some "e"⟩] ⟨[], []⟩ (fun q => rfl) (by decide)⟩

/-! ## The non-empty-at-flush invariant -/

theorem processPage_preserves_nonempty (path dir : String) (wf : String → Bool)
    (st : RunState) (p : Page)
    (hfl : ∀ d ∈ st.flushed, d.pages ≠ [])
    (hcur : ∀ c, st.current = some c → c.pages ≠ []) :
    (∀ d ∈ (processPage path dir wf st p).1.flushed, d.pages ≠ []) ∧
    (∀ c, (processPage path dir wf st p).1.current = some c →
      c.pages ≠ []) := by
  cases htx : p.text with
  | none =>
      rw [processPage_extract_none path dir wf st p htx]
      exact ⟨hfl, hcur⟩
  | some t =>
    cases hdz : extract_dz_code t with
    | none =>
        cases hc : st.current with
        | none =>
            rw [processPage_nomarker_closed path dir wf st p t hc htx hdz]
            exact ⟨hfl, hcur⟩
        | some cur =>
            rw [processPage_nomarker_open path dir wf st p cur t hc htx hdz]
            refine ⟨hfl, ?_⟩
            intro c hcc
            have h1 : ({ cur with pages := cur.pages ++ [p] } :
                ClientDocument) = c := Option.some.inj hcc
            rw [← h1]
            simp
    | some dz =>
        cases hc : st.current with
        | none =>
            rw [processPage_marker_closed path dir wf st p t dz hc htx hdz]
            refine ⟨hfl, ?_⟩
            intro c hcc
            have h1 : (⟨dz, [p], path⟩ : ClientDocument) = c :=
              Option.some.inj hcc
            rw [← h1]
            simp
        | some cur =>
            have hne := hcur cur hc
            have hflush : ∀ d ∈ st.flushed ++ [cur], d.pages ≠ [] := by
              intro d hd
              rcases List.mem_append.mp hd with hd1 | hd2
              · exact hfl d hd1
              · have : d = cur := by simpa using hd2
                subst this
                exact hne
            cases hwfc : wf (outPath dir cur) with
            | false =>
                rw [processPage_marker_open path dir wf st p cur t dz hc hne
                  hwfc htx hdz]
                refine ⟨hflush, ?_⟩
                intro c hcc
                have h1 : (⟨dz, [p], path⟩ : ClientDocument) = c :=
                  Option.some.inj hcc
                rw [← h1]
                simp
            | true =>
                rw [processPage_marker_open_fail path dir wf st p cur t dz hc
                  hne hwfc htx hdz]
                refine ⟨hflush, ?_⟩
                intro c hcc
                have h2 : st.current = some c := hcc
                rw [hc] at h2
                have h1 : cur = c := Option.some.inj h2
                rw [← h1]
                exact hne

theorem runPages_preserves_nonempty (path dir : String) (wf : String → Bool) :
    ∀ (pages : List Page) (st : RunState),
      (∀ d ∈ st.flushed, d.pages ≠ []) →
      (∀ c, st.current = some c → c.pages ≠ []) →
      (∀ d ∈ (runPages path dir wf pages st).1.flushed, d.pages ≠ []) ∧
      (∀ c, (runPages path dir wf pages st).1.current = some c →
        c.pages ≠ []) := by
  intro pages
  induction pages with
  | nil =>
      intro st hfl hcur
      exact ⟨hfl, hcur⟩
  | cons p rest ih =>
      intro st hfl hcur
      rw [runPages_cons]
      have H := processPage_preserves_nonempty path dir wf st p hfl hcur
      rcases hp : processPage path dir wf st p with ⟨st1, oe⟩
      rw [hp] at H
      cases oe with
      | none => exact ih st1 H.1 H.2
      | some e => exact H

theorem finalFlush_preserves_nonempty (dir : String) (wf : String → Bool)
    (st : RunState)
    (hfl : ∀ d ∈ st.flushed, d.pages ≠ [])
    (hcur : ∀ c, st.current = some c → c.pages ≠ []) :
    ∀ d ∈ (finalFlush dir wf st).1.flushed, d.pages ≠ [] := by
  cases hc : st.current with
  | none =>
      rw [finalFlush_closed dir wf st hc]
      exact hfl
  | some cur =>
      unfold finalFlush
      rw [hc]
      intro d hd
      rcases List.mem_append.mp hd with hd1 | hd2
      · exact hfl d hd1
      · have : d = cur := by simpa using hd2
        subst this
        exact hcur d hc

/-- Claim C7: every document passed to the group writer — whether flushed on a
new-marker boundary or at end of input — has a non-empty pages list: a group
always contains at least the page its marker was detected on. This holds for
every input, every filesystem and every write-failure behaviour. -/
theorem C7_flush_only_nonempty_groups (path dir : String) (wf : String → Bool)
    (pages : List Page) (fs : FS) :
    ∀ d ∈ (split_pdf_by_dz path dir wf pages fs).1.flushed, d.pages ≠ [] := by
  have H := runPages_preserves_nonempty path dir wf pages
    (initState dir fs) (by intro d hd; cases hd) (by intro c hc; cases hc)
  unfold split_pdf_by_dz runAndFlush
  rcases hr : runPages path dir wf pages (initState dir fs) with ⟨st1, oe⟩
  rw [hr] at H
  cases oe with
  | none => exact finalFlush_preserves_nonempty dir wf st1 H.1 H.2
  | some e => exact H.1

theorem C7_witness :
    (⟨"DZ1", [⟨0, some "DZ1"⟩], "in.pdf"⟩ : ClientDocument).pages ≠ [] :=
  C7_flush_only_nonempty_groups "in.pdf" "out" (fun _ => false)
    [⟨0, some "DZ1"⟩] ⟨[], []⟩
    ⟨"DZ1", [⟨0, some "DZ1"⟩], "in.pdf"⟩ (by decide)

/-! ## Failure propagation -/

/-- Counterexample to the claim that a page whose text extraction fails is
logged and treated as a marker-less page with the run continuing: on the
input `[marker page DZ1, page whose extraction raises, readable page]` the
run aborts at the raising page — the error propagates out of
`split_pdf_by_dz`, the open group is never flushed and nothing is written —
instead of the page being appended to the open group and the run
continuing to a flush of a three-page group. -/
theorem C3_counterexample :
    (split_pdf_by_dz "in.pdf" "out" (fun _ => false)
        [⟨0, some "DZ1"⟩, ⟨1, none⟩, ⟨2, some "x"⟩] ⟨[], []⟩).2 =
      some (.extractFailed 1) ∧
    (split_pdf_by_dz "in.pdf" "out" (fun _ => false)
        [⟨0, some "DZ1"⟩, ⟨1, none⟩, ⟨2, some "x"⟩] ⟨[], []⟩).1.flushed =
      [] ∧
    (split_pdf_by_dz "in.pdf" "out" (fun _ => false)
        [⟨0, some "DZ1"⟩, ⟨1, none⟩, ⟨2, some "x"⟩] ⟨[], []⟩).1.fs.files =
      [] := by
  decide

/-- Claim C3 (amended): a page whose `extract_text()` raises is not handled:
the exception propagates out of `split_pdf_by_dz`, the run aborts exactly at
that page (the state is the one reached after the preceding pages, the open
group unflushed, and no later page is processed); only a page whose
extraction succeeds with marker-less text (e.g. the empty string) is treated
as a marker-less page — appended to the open group — with the run
continuing. -/
theorem C3_amended_extraction_failure_aborts (path dir : String)
    (wf : String → Bool) (fs : FS) (pref rest : List Page) (bad : Page)
    (st1 stc : RunState) (cur : ClientDocument) (p : Page) (t : String)
    (hbad : bad.text = none)
    (hpref : runPages path dir wf pref (initState dir fs) = (st1, none))
    (hc : stc.current = some cur)
    (hp : p.text = some t) (hdzn : extract_dz_code t = none) :
    split_pdf_by_dz path dir wf (pref ++ bad :: rest) fs =
      (st1, some (.extractFailed bad.pid)) ∧
    processPage path dir wf stc p =
      ({ stc with
         current := some { cur with pages := cur.pages ++ [p] } }, none) := by
  constructor
  · have h2 : runPages path dir wf (pref ++ bad :: rest) (initState dir fs) =
        (st1, some (.extractFailed bad.pid)) := by
      rw [runPages_append, hpref]
      show runPages path dir wf (bad :: rest) st1 = _
      rw [runPages_cons, processPage_extract_none path dir wf st1 bad hbad]
    unfold split_pdf_by_dz runAndFlush
    rw [h2]
  · exact processPage_nomarker_open path dir wf stc p cur t hc hp hdzn

theorem C3_witness :
    (⟨1, none⟩ : Page).text = none ∧
    runPages "in.pdf" "out" (fun _ => false) [⟨0, some "DZ1"⟩]
        (initState "out" ⟨[], []⟩) =
      (⟨⟨["out"], []⟩, some ⟨"DZ1", [⟨0, some "DZ1"⟩], "in.pdf"⟩,
        [], [], 0⟩, none) ∧
    (⟨⟨["out"], []⟩, some ⟨"DZ1", [⟨0, some "DZ1"⟩], "in.pdf"⟩, [], [],
        0⟩ : RunState).current =
      some ⟨"DZ1", [⟨0, some "DZ1"⟩], "in.pdf"⟩ ∧
    (⟨2, some ""⟩ : Page).text = some "" ∧
    extract_dz_code "" = none ∧
    (split_pdf_by_dz "in.pdf" "out" (fun _ => false)
        ([⟨0, some "DZ1"⟩] ++ ⟨1, none⟩ :: [⟨2, some "x"⟩]) ⟨[], []⟩ =
      (⟨⟨["out"], []⟩, some ⟨"DZ1", [⟨0, some "DZ1"⟩], "in.pdf"⟩,
        [], [], 0⟩, some (.extractFailed 1)) ∧
     processPage "in.pdf" "out" (fun _ => false)
        ⟨⟨["out"], []⟩, some ⟨"DZ1", [⟨0, some "DZ1"⟩], "in.pdf"⟩, [], [], 0⟩
        ⟨2, some ""⟩ =
      (⟨⟨["out"], []⟩,
        some ⟨"DZ1", [⟨0, some "DZ1"⟩, ⟨2, some ""⟩], "in.pdf"⟩,
        [], [], 0⟩, none)) :=
  ⟨rfl, by decide, rfl, rfl, by decide,
   C3_amended_extraction_failure_aborts "in.pdf" "out" (fun _ => false)
     ⟨[], []⟩ [⟨0, some "DZ1"⟩] [⟨2, some "x"⟩] ⟨1, none⟩
     ⟨⟨["out"], []⟩, some ⟨"DZ1", [⟨0, some "DZ1"⟩], "in.pdf"⟩, [], [], 0⟩
     ⟨⟨["out"], []⟩, some ⟨"DZ1", [⟨0, some "DZ1"⟩], "in.pdf"⟩, [], [], 0⟩
     ⟨"DZ1", [⟨0, some "DZ1"⟩], "in.pdf"⟩ ⟨2, some ""⟩ ""
     rfl (by decide) rfl rfl (by decide)⟩

/-- Claim C4: when writing a group's output file fails — whether at a
boundary flush inside the page loop or at the end-of-input flush — the
failing `save_client_document` leaves the file table exactly as it was (the
failed group is not written, not retried, and every previously flushed
group's file is untouched), and the error propagates out of
`split_pdf_by_dz` as the run's result with the state frozen at the failure
point, so no page after the failure is processed and no further group is
flushed. The loop case is stated over any decomposition `pref ++ rest` whose
prefix fails; the end-of-input case over any run whose page loop finishes
cleanly with an open group whose write fails. -/
theorem C4_write_failure_fatal_no_retry (path dir : String)
    (wf : String → Bool) (fs fs2 fs3 : FS) (doc cur : ClientDocument)
    (q : String) (pref rest pages2 : List Page) (st1 st2 : RunState)
    (hsave : (save_client_document doc dir wf fs2).err = some q)
    (hpref : runPages path dir wf pref (initState dir fs) =
      (st1, some (.writeFailed q)))
    (hloop : runPages path dir wf pages2 (initState dir fs3) = (st2, none))
    (hcur : st2.current = some cur) (hne2 : cur.pages ≠ [])
    (hwfc2 : wf (outPath dir cur) = true) :
    (save_client_document doc dir wf fs2).fs.files = fs2.files ∧
    (save_client_document doc dir wf fs2).wrotePath = none ∧
    split_pdf_by_dz path dir wf (pref ++ rest) fs =
      (st1, some (.writeFailed q)) ∧
    split_pdf_by_dz path dir wf pages2 fs3 =
      ({ st2 with
         fs := ⟨addDir st2.fs.dirs (dzDirectory dir cur.dz_code),
               st2.fs.files⟩
         flushed := st2.flushed ++ [cur] },
       some (.writeFailed (outPath dir cur))) := by
  have hne : doc.pages ≠ [] := by
    intro h
    unfold save_client_document at hsave
    rw [if_pos h] at hsave
    cases hsave
  have hsplit : split_pdf_by_dz path dir wf (pref ++ rest) fs =
      (st1, some (.writeFailed q)) := by
    have h2 : runPages path dir wf (pref ++ rest) (initState dir fs) =
        (st1, some (.writeFailed q)) := by
      rw [runPages_append, hpref]
    unfold split_pdf_by_dz runAndFlush
    rw [h2]
  have hfinal : split_pdf_by_dz path dir wf pages2 fs3 =
      ({ st2 with
         fs := ⟨addDir st2.fs.dirs (dzDirectory dir cur.dz_code),
               st2.fs.files⟩
         flushed := st2.flushed ++ [cur] },
       some (.writeFailed (outPath dir cur))) := by
    unfold split_pdf_by_dz runAndFlush
    rw [hloop]
    exact finalFlush_open_fail dir wf st2 cur hcur hne2 hwfc2
  by_cases hwfc : wf (outPath dir doc) = true
  · rw [save_eq_of_fail doc dir wf fs2 hne hwfc]
    exact ⟨rfl, rfl, hsplit, hfinal⟩
  · rw [save_eq_of_ok doc dir wf fs2 hne
      (by simpa using hwfc)] at hsave
    cases hsave

theorem C4_witness :
    (save_client_document ⟨"DZ2", [⟨0, some "DZ2"⟩], "in.pdf"⟩ "out"
        (fun s => s == "out/DZ2/in_DZ2.pdf") ⟨[], []⟩).err =
      some "out/DZ2/in_DZ2.pdf" ∧
    runPages "in.pdf" "out" (fun s => s == "out/DZ2/in_DZ2.pdf")
        [⟨0, some "DZ2"⟩, ⟨1, some "DZ3"⟩] (initState "out" ⟨[], []⟩) =
      (⟨⟨["out", "out/DZ2"], []⟩,
        some ⟨"DZ2", [⟨0, some "DZ2"⟩], "in.pdf"⟩,
        [⟨"DZ2", [⟨0, some "DZ2"⟩], "in.pdf"⟩], [], 0⟩,
       some (.writeFailed "out/DZ2/in_DZ2.pdf")) ∧
    runPages "in.pdf" "out" (fun s => s == "out/DZ2/in_DZ2.pdf")
        [⟨5, some "DZ2"⟩] (initState "out" ⟨[], []⟩) =
      (⟨⟨["out"], []⟩, some ⟨"DZ2", [⟨5, some "DZ2"⟩], "in.pdf"⟩,
        [], [], 0⟩, none) ∧
    (⟨⟨["out"], []⟩, some ⟨"DZ2", [⟨5, some "DZ2"⟩], "in.pdf"⟩, [], [],
        0⟩ : RunState).current =
      some ⟨"DZ2", [⟨5, some "DZ2"⟩], "in.pdf"⟩ ∧
    (⟨"DZ2", [⟨5, some "DZ2"⟩], "in.pdf"⟩ : ClientDocument).pages ≠ [] ∧
    (fun s => s == "out/DZ2/in_DZ2.pdf")
      (outPath "out" ⟨"DZ2", [⟨5, some "DZ2"⟩], "in.pdf"⟩) = true ∧
    ((save_client_document ⟨"DZ2", [⟨0, some "DZ2"⟩], "in.pdf"⟩ "out"
        (fun s => s == "out/DZ2/in_DZ2.pdf") ⟨[], []⟩).fs.files =
      (⟨[], []⟩ : FS).files ∧
     (save_client_document ⟨"DZ2", [⟨0, some "DZ2"⟩], "in.pdf"⟩ "out"
        (fun s => s == "out/DZ2/in_DZ2.pdf") ⟨[], []⟩).wrotePath = none ∧
     split_pdf_by_dz "in.pdf" "out" (fun s => s == "out/DZ2/in_DZ2.pdf")
        ([⟨0, some "DZ2"⟩, ⟨1, some "DZ3"⟩] ++ [⟨2, some "x"⟩]) ⟨[], []⟩ =
      (⟨⟨["out", "out/DZ2"], []⟩,
        some ⟨"DZ2", [⟨0, some "DZ2"⟩], "in.pdf"⟩,
        [⟨"DZ2", [⟨0, some "DZ2"⟩], "in.pdf"⟩], [], 0⟩,
       some (.writeFailed "out/DZ2/in_DZ2.pdf")) ∧
     split_pdf_by_dz "in.pdf" "out" (fun s => s == "out/DZ2/in_DZ2.pdf")
        [⟨5, some "DZ2"⟩] ⟨[], []⟩ =
      ({ (⟨⟨["out"], []⟩, some ⟨"DZ2", [⟨5, some "DZ2"⟩], "in.pdf"⟩, [],
           [], 0⟩ : RunState) with
         fs := ⟨addDir (⟨["out"], []⟩ : FS).dirs
                 (dzDirectory "out"
                   (⟨"DZ2", [⟨5, some "DZ2"⟩], "in.pdf"⟩ :
                     ClientDocument).dz_code),
               (⟨["out"], []⟩ : FS).files⟩
         flushed := ([] : List ClientDocument) ++
           [⟨"DZ2", [⟨5, some "DZ2"⟩], "in.pdf"⟩] },
       some (.writeFailed
         (outPath "out" ⟨"DZ2", [⟨5, some "DZ2"⟩], "in.pdf"⟩)))) :=
  ⟨by decide, by decide, by decide, rfl, by decide, by decide,
   C4_write_failure_fatal_no_retry "in.pdf" "out"
     (fun s => s == "out/DZ2/in_DZ2.pdf") ⟨[], []⟩ ⟨[], []⟩ ⟨[], []⟩
     ⟨"DZ2", [⟨0, some "DZ2"⟩], "in.pdf"⟩
     ⟨"DZ2", [⟨5, some "DZ2"⟩], "in.pdf"⟩ "out/DZ2/in_DZ2.pdf"
     [⟨0, some "DZ2"⟩, ⟨1, some "DZ3"⟩] [⟨2, some "x"⟩]
     [⟨5, some "DZ2"⟩]
     ⟨⟨["out", "out/DZ2"], []⟩,
      some ⟨"DZ2", [⟨0, some "DZ2"⟩], "in.pdf"⟩,
      [⟨"DZ2", [⟨0, some "DZ2"⟩], "in.pdf"⟩], [], 0⟩
     ⟨⟨["out"], []⟩, some ⟨"DZ2", [⟨5, some "DZ2"⟩], "in.pdf"⟩, [], [], 0⟩
     (by decide) (by decide) (by decide) rfl (by decide) (by decide)⟩

/-! ## Replaying writes: last write wins -/

theorem specGroups_nil (path : String) : specGroups path [] = [] := by
  simp [specGroups]

theorem lookupFile_setFile (f : List (String × List Page)) (a : String)
    (v : List Page) (p : String) :
    lookupFile (setFile f a v) p = if a = p then some v else lookupFile f p := by
  by_cases h : a = p
  · subst h
    rw [if_pos rfl, lookupFile_setFile_self]
  · rw [if_neg h, lookupFile_setFile_other f a v p (fun hh => h hh.symm)]

theorem lastWrite_foldl (p : String) :
    ∀ (ws : List (String × List Page)) (a : Option (List Page)),
      ws.foldl (fun acc w => if w.1 = p then some w.2 else acc) a =
        match lastWrite ws p with
        | some v => some v
        | none => a := by
  intro ws
  induction ws with
  | nil =>
      intro a
      rfl
  | cons w ws ih =>
      intro a
      show ws.foldl _ (if w.1 = p then some w.2 else a) = _
      rw [ih]
      have hW : lastWrite (w :: ws) p =
          ws.foldl (fun acc w => if w.1 = p then some w.2 else acc)
            (if w.1 = p then some w.2 else none) := rfl
      rw [hW, ih]
      cases hl : lastWrite ws p with
      | some v => rfl
      | none => by_cases hw : w.1 = p <;> simp [hw]

theorem lastWrite_cons (w : String × List Page)
    (ws : List (String × List Page)) (p : String) :
    lastWrite (w :: ws) p =
      match lastWrite ws p with
      | some v => some v
      | none => if w.1 = p then some w.2 else none :=
  lastWrite_foldl p ws (if w.1 = p then some w.2 else none)

theorem lookupFile_applyWrites (p : String) :
    ∀ (ws f : List (String × List Page)),
      lookupFile (applyWrites f ws) p =
        match lastWrite ws p with
        | some v => some v
        | none => lookupFile f p := by
  intro ws
  induction ws with
  | nil =>
      intro f
      rfl
  | cons w ws ih =>
      intro f
      show lookupFile (applyWrites (setFile f w.1 w.2) ws) p = _
      rw [ih, lastWrite_cons, lookupFile_setFile]
      cases hl : lastWrite ws p with
      | some v => rfl
      | none => by_cases hw : w.1 = p <;> simp [hw]

theorem lookupFile_applyWrites_twice (f ws : List (String × List Page))
    (p : String) :
    lookupFile (applyWrites (applyWrites f ws) ws) p =
      lookupFile (applyWrites f ws) p := by
  rw [lookupFile_applyWrites, lookupFile_applyWrites]
  cases hl : lastWrite ws p with
  | some v => rfl
  | none => rfl

theorem mem_addDir (x d : String) (ds : List String) :
    x ∈ addDir ds d ↔ x ∈ ds ∨ x = d := by
  unfold addDir
  by_cases h : d ∈ ds
  · rw [if_pos h]
    constructor
    · exact Or.inl
    · rintro (hx | rfl)
      · exact hx
      · exact h
  · rw [if_neg h]
    simp

theorem mem_applyDirs (x : String) : ∀ (es ds : List String),
    x ∈ applyDirs ds es ↔ x ∈ ds ∨ x ∈ es := by
  intro es
  induction es with
  | nil =>
      intro ds
      simp [applyDirs]
  | cons e es ih =>
      intro ds
      show x ∈ applyDirs (addDir ds e) es ↔ _
      rw [ih, mem_addDir]
      simp only [List.mem_cons]
      tauto

theorem initState_files (dir : String) (fs : FS) :
    (initState dir fs).fs.files = fs.files := rfl

theorem initState_dirs (dir : String) (fs : FS) :
    (initState dir fs).fs.dirs = addDir fs.dirs dir := rfl

theorem lastWrite_some_exists (P : String) :
    ∀ (ws : List (String × List Page)) (v : List Page),
      lastWrite ws P = some v →
      ∃ (k : Nat) (wk : String × List Page),
        ws[k]? = some wk ∧ wk.1 = P ∧ wk.2 = v := by
  intro ws
  induction ws with
  | nil =>
      intro v h
      cases h
  | cons w ws ih =>
      intro v h
      rw [lastWrite_cons] at h
      cases hl : lastWrite ws P with
      | some v2 =>
          rw [hl] at h
          have h2 : some v2 = some v := h
          obtain ⟨k, wk, hk, hP, hval⟩ := ih v2 hl
          refine ⟨k + 1, wk, by simpa using hk, hP, ?_⟩
          rw [hval, Option.some.inj h2]
      | none =>
          rw [hl] at h
          have h2 : (if w.1 = P then some w.2 else none) = some v := h
          by_cases hw : w.1 = P
          · rw [if_pos hw] at h2
            exact ⟨0, w, List.getElem?_cons_zero, hw, Option.some.inj h2⟩
          · rw [if_neg hw] at h2
            cases h2

theorem lastWrite_from_index (P : String) :
    ∀ (ws : List (String × List Page)) (j : Nat) (w : String × List Page),
      ws[j]? = some w → w.1 = P →
      ∃ (k : Nat) (wk : String × List Page),
        j ≤ k ∧ ws[k]? = some wk ∧ wk.1 = P ∧
        lastWrite ws P = some wk.2 := by
  intro ws
  induction ws with
  | nil =>
      intro j w hj _
      rw [List.getElem?_nil] at hj
      cases hj
  | cons w0 ws ih =>
      intro j w hj hP
      cases j with
      | zero =>
          have hw0 : w0 = w := by
            rw [List.getElem?_cons_zero] at hj
            exact Option.some.inj hj
          cases hl : lastWrite ws P with
          | some v =>
              obtain ⟨k, wk, hk, hkP, hkv⟩ := lastWrite_some_exists P ws v hl
              refine ⟨k + 1, wk, Nat.zero_le _, by simpa using hk, hkP, ?_⟩
              rw [lastWrite_cons, hl]
              show some v = some wk.2
              rw [hkv]
          | none =>
              refine ⟨0, w0, Nat.le_refl 0, List.getElem?_cons_zero,
                by rw [hw0]; exact hP, ?_⟩
              rw [lastWrite_cons, hl]
              show (if w0.1 = P then some w0.2 else none) = some w0.2
              rw [if_pos (by rw [hw0]; exact hP)]
      | succ j1 =>
          have hj1 : ws[j1]? = some w := by simpa using hj
          obtain ⟨k, wk, hk, hkE, hkP, hkv⟩ := ih j1 w hj1 hP
          refine ⟨k + 1, wk, Nat.succ_le_succ hk, by simpa using hkE,
            hkP, ?_⟩
          rw [lastWrite_cons, hkv]

theorem specGroups_orig_aux (path : String) :
    ∀ (n : Nat) (pages : List Page), pages.length ≤ n →
      ∀ g ∈ specGroups path pages, g.original_filename = path := by
  intro n
  induction n with
  | zero =>
      intro pages hl
      have hnil : pages = [] :=
        List.eq_nil_of_length_eq_zero (Nat.le_zero.mp hl)
      subst hnil
      rw [specGroups_nil]
      intro g hg
      cases hg
  | succ n ih =>
      intro pages hl
      match pages with
      | [] =>
          rw [specGroups_nil]
          intro g hg
          cases hg
      | p :: rest =>
          rw [List.length_cons] at hl
          cases htx : p.text with
          | none =>
              rw [specGroups_cons_unreadable path p rest htx]
              exact ih rest (by omega)
          | some t =>
              cases hdz : extract_dz_code t with
              | some dz =>
                  rw [specGroups_cons_marker path p rest t dz htx hdz]
                  intro g hg
                  rcases List.mem_cons.mp hg with rfl | hg2
                  · rfl
                  · exact ih (rest.dropWhile (fun q => !pageHasMarker q))
                      (by
                        have := (List.dropWhile_sublist
                          (l := rest) (fun q => !pageHasMarker q)).length_le
                        omega) g hg2
              | none =>
                  rw [specGroups_cons_nomarker path p rest t htx hdz]
                  exact ih rest (by omega)

theorem specGroups_orig (path : String) (pages : List Page)
    (g : ClientDocument) (hg : g ∈ specGroups path pages) :
    g.original_filename = path :=
  specGroups_orig_aux path pages.length pages (Nat.le_refl _) g hg

theorem outPath_congr (dir : String) (g1 g2 : ClientDocument)
    (hdz : g1.dz_code = g2.dz_code)
    (ho : g1.original_filename = g2.original_filename) :
    outPath dir g1 = outPath dir g2 := by
  unfold outPath dzDirectory
  rw [hdz, ho]

/-- Claim C6: for every input on which the grouping pass flushes two groups
with the same marker (the marker detected on two non-contiguous marker
pages — any other groups, continuation pages or orphans may surround or
separate them), on a run with all pages readable and no write failure: the
two occurrences are distinct entries of the flushed sequence, which equals
the document-ordered spec grouping (the later occurrence opened a brand-new
group, never merged into the earlier group); both groups derive the same
output path from the shared source name and marker; and the final file
contents at that path are those of a group at or after the later
occurrence — the later group's write silently overwrote the earlier
group's file. -/
theorem C6_duplicate_marker_new_group_overwrites (path dir : String)
    (wf : String → Bool) (pages : List Page) (fs : FS)
    (i j : Nat) (gi gj : ClientDocument)
    (hwf : ∀ q, wf q = false)
    (hread : ∀ p ∈ pages, p.text ≠ none)
    (hij : i < j)
    (hgi : (split_pdf_by_dz path dir wf pages fs).1.flushed[i]? = some gi)
    (hgj : (split_pdf_by_dz path dir wf pages fs).1.flushed[j]? = some gj)
    (hsame : gi.dz_code = gj.dz_code) :
    (split_pdf_by_dz path dir wf pages fs).2 = none ∧
    (split_pdf_by_dz path dir wf pages fs).1.flushed =
      specGroups path pages ∧
    outPath dir gi = outPath dir gj ∧
    ∃ (k : Nat) (gk : ClientDocument), j ≤ k ∧ i < k ∧
      (split_pdf_by_dz path dir wf pages fs).1.flushed[k]? = some gk ∧
      outPath dir gk = outPath dir gj ∧
      lookupFile (split_pdf_by_dz path dir wf pages fs).1.fs.files
        (outPath dir gj) = some gk.pages := by
  have H := runAndFlush_closed path dir wf hwf pages (initState dir fs) rfl
    hread
  have hfl : (split_pdf_by_dz path dir wf pages fs).1.flushed =
      specGroups path pages := H.2.1
  rw [hfl] at hgi hgj
  have horigi : gi.original_filename = path :=
    specGroups_orig path pages gi (List.getElem?_mem hgi)
  have horigj : gj.original_filename = path :=
    specGroups_orig path pages gj (List.getElem?_mem hgj)
  have hout : outPath dir gi = outPath dir gj :=
    outPath_congr dir gi gj hsame (by rw [horigi, horigj])
  have hwsj : (writesOf dir (specGroups path pages))[j]? =
      some (outPath dir gj, gj.pages) := by
    unfold writesOf
    rw [List.getElem?_map, hgj]
    rfl
  obtain ⟨k, wk, hjk, hkE, hkP, hkv⟩ :=
    lastWrite_from_index (outPath dir gj)
      (writesOf dir (specGroups path pages)) j
      (outPath dir gj, gj.pages) hwsj rfl
  have hkE2 : ((specGroups path pages)[k]?).map
      (fun d => (outPath dir d, d.pages)) = some wk := by
    rw [← List.getElem?_map]
    exact hkE
  obtain ⟨gk, hgk, hfgk⟩ := Option.map_eq_some'.mp hkE2
  refine ⟨H.1, hfl, hout, k, gk, hjk, Nat.lt_of_lt_of_le hij hjk, ?_, ?_,
    ?_⟩
  · rw [hfl]
    exact hgk
  · rw [← hfgk] at hkP
    exact hkP
  · have hfiles : (split_pdf_by_dz path dir wf pages fs).1.fs.files =
        applyWrites (initState dir fs).fs.files
          (writesOf dir (specGroups path pages)) := H.2.2.2.2.1
    rw [hfiles, lookupFile_applyWrites, hkv]
    show some wk.2 = some gk.pages
    rw [← hfgk]

theorem C6_witness :
    (∀ p ∈ ([⟨0, some "z"⟩, ⟨1, some "DZ7 a"⟩, ⟨2, some "c"⟩,
             ⟨3, some "DZ9"⟩, ⟨4, some "DZ7 b"⟩, ⟨5, some "d"⟩] :
             List Page), p.text ≠ none) ∧
    0 < 2 ∧
    (split_pdf_by_dz "in.pdf" "out" (fun _ => false)
        [⟨0, some "z"⟩, ⟨1, some "DZ7 a"⟩, ⟨2, some "c"⟩,
         ⟨3, some "DZ9"⟩, ⟨4, some "DZ7 b"⟩, ⟨5, some "d"⟩]
        ⟨[], []⟩).1.flushed[0]? =
      some ⟨"DZ7", [⟨1, some "DZ7 a"⟩, ⟨2, some "c"⟩], "in.pdf"⟩ ∧
    (split_pdf_by_dz "in.pdf" "out" (fun _ => false)
        [⟨0, some "z"⟩, ⟨1, some "DZ7 a"⟩, ⟨2, some "c"⟩,
         ⟨3, some "DZ9"⟩, ⟨4, some "DZ7 b"⟩, ⟨5, some "d"⟩]
        ⟨[], []⟩).1.flushed[2]? =
      some ⟨"DZ7", [⟨4, some "DZ7 b"⟩, ⟨5, some "d"⟩], "in.pdf"⟩ ∧
    ((split_pdf_by_dz "in.pdf" "out" (fun _ => false)
        [⟨0, some "z"⟩, ⟨1, some "DZ7 a"⟩, ⟨2, some "c"⟩,
         ⟨3, some "DZ9"⟩, ⟨4, some "DZ7 b"⟩, ⟨5, some "d"⟩]
        ⟨[], []⟩).2 = none ∧
     (split_pdf_by_dz "in.pdf" "out" (fun _ => false)
        [⟨0, some "z"⟩, ⟨1, some "DZ7 a"⟩, ⟨2, some "c"⟩,
         ⟨3, some "DZ9"⟩, ⟨4, some "DZ7 b"⟩, ⟨5, some "d"⟩]
        ⟨[], []⟩).1.flushed =
       specGroups "in.pdf"
         [⟨0, some "z"⟩, ⟨1, some "DZ7 a"⟩, ⟨2, some "c"⟩,
          ⟨3, some "DZ9"⟩, ⟨4, some "DZ7 b"⟩, ⟨5, some "d"⟩] ∧
     outPath "out" (⟨"DZ7", [⟨1, some "DZ7 a"⟩, ⟨2, some "c"⟩],
        "in.pdf"⟩ : ClientDocument) =
       outPath "out" (⟨"DZ7", [⟨4, some "DZ7 b"⟩, ⟨5, some "d"⟩],
        "in.pdf"⟩ : ClientDocument) ∧
     ∃ (k : Nat) (gk : ClientDocument), 2 ≤ k ∧ 0 < k ∧
       (split_pdf_by_dz "in.pdf" "out" (fun _ => false)
          [⟨0, some "z"⟩, ⟨1, some "DZ7 a"⟩, ⟨2, some "c"⟩,
           ⟨3, some "DZ9"⟩, ⟨4, some "DZ7 b"⟩, ⟨5, some "d"⟩]
          ⟨[], []⟩).1.flushed[k]? = some gk ∧
       outPath "out" gk =
         outPath "out" (⟨"DZ7", [⟨4, some "DZ7 b"⟩, ⟨5, some "d"⟩],
          "in.pdf"⟩ : ClientDocument) ∧
       lookupFile (split_pdf_by_dz "in.pdf" "out" (fun _ => false)
          [⟨0, some "z"⟩, ⟨1, some "DZ7 a"⟩, ⟨2, some "c"⟩,
           ⟨3, some "DZ9"⟩, ⟨4, some "DZ7 b"⟩, ⟨5, some "d"⟩]
          ⟨[], []⟩).1.fs.files
         (outPath "out" (⟨"DZ7", [⟨4, some "DZ7 b"⟩, ⟨5, some "d"⟩],
          "in.pdf"⟩ : ClientDocument)) = some gk.pages) :=
  ⟨by decide, by decide, by decide, by decide,
   C6_duplicate_marker_new_group_overwrites "in.pdf" "out" (fun _ => false)
     [⟨0, some "z"⟩, ⟨1, some "DZ7 a"⟩, ⟨2, some "c"⟩,
      ⟨3, some "DZ9"⟩, ⟨4, some "DZ7 b"⟩, ⟨5, some "d"⟩] ⟨[], []⟩
     0 2 ⟨"DZ7", [⟨1, some "DZ7 a"⟩, ⟨2, some "c"⟩], "in.pdf"⟩
     ⟨"DZ7", [⟨4, some "DZ7 b"⟩, ⟨5, some "d"⟩], "in.pdf"⟩
     (fun q => rfl) (by decide) (by decide) (by decide) (by decide) rfl⟩

/-- Claim C8: running the split a second time on the same input with the same
output root, starting from the filesystem the first run produced, is
idempotent: the second run also succeeds, flushes the same groups in the
same order (hence writes the same set of paths with identical contents), and
the final output-directory contents are identical — every path holds the
same file contents and the same directories exist. -/
theorem C8_second_run_is_idempotent (path dir : String) (wf : String → Bool)
    (pages : List Page) (fs : FS)
    (hwf : ∀ q, wf q = false)
    (hread : ∀ p ∈ pages, p.text ≠ none) :
    (split_pdf_by_dz path dir wf pages fs).2 = none ∧
    (split_pdf_by_dz path dir wf pages
        (split_pdf_by_dz path dir wf pages fs).1.fs).2 = none ∧
    (split_pdf_by_dz path dir wf pages
        (split_pdf_by_dz path dir wf pages fs).1.fs).1.flushed =
      (split_pdf_by_dz path dir wf pages fs).1.flushed ∧
    (∀ q, lookupFile (split_pdf_by_dz path dir wf pages
        (split_pdf_by_dz path dir wf pages fs).1.fs).1.fs.files q =
      lookupFile (split_pdf_by_dz path dir wf pages fs).1.fs.files q) ∧
    (∀ d, d ∈ (split_pdf_by_dz path dir wf pages
        (split_pdf_by_dz path dir wf pages fs).1.fs).1.fs.dirs ↔
      d ∈ (split_pdf_by_dz path dir wf pages fs).1.fs.dirs) := by
  have H1 := runAndFlush_closed path dir wf hwf pages (initState dir fs) rfl
    hread
  have H2 := runAndFlush_closed path dir wf hwf pages
    (initState dir (runAndFlush path dir wf pages (initState dir fs)).1.fs)
    rfl hread
  simp only [split_pdf_by_dz]
  refine ⟨H1.1, H2.1, ?_, ?_, ?_⟩
  · rw [H2.2.1, H1.2.1]
    rfl
  · intro q
    rw [H2.2.2.2.2.1, initState_files, H1.2.2.2.2.1, initState_files]
    exact lookupFile_applyWrites_twice fs.files
      (writesOf dir (specGroups path pages)) q
  · intro d
    rw [H2.2.2.2.2.2, initState_dirs, H1.2.2.2.2.2, initState_dirs]
    simp only [mem_applyDirs, mem_addDir]
    tauto

theorem C8_witness :
    (∀ p ∈ ([⟨0, some "DZ1 x"⟩, ⟨1, some "c"⟩] : List Page),
      p.text ≠ none) ∧
    ((split_pdf_by_dz "in.pdf" "out" (fun _ => false)
        [⟨0, some "DZ1 x"⟩, ⟨1, some "c"⟩] ⟨[], []⟩).2 = none ∧
     (split_pdf_by_dz "in.pdf" "out" (fun _ => false)
        [⟨0, some "DZ1 x"⟩, ⟨1, some "c"⟩]
        (split_pdf_by_dz "in.pdf" "out" (fun _ => false)
          [⟨0, some "DZ1 x"⟩, ⟨1, some "c"⟩] ⟨[], []⟩).1.fs).2 = none ∧
     (split_pdf_by_dz "in.pdf" "out" (fun _ => false)
        [⟨0, some "DZ1 x"⟩, ⟨1, some "c"⟩]
        (split_pdf_by_dz "in.pdf" "out" (fun _ => false)
          [⟨0, some "DZ1 x"⟩, ⟨1, some "c"⟩] ⟨[], []⟩).1.fs).1.flushed =
       (split_pdf_by_dz "in.pdf" "out" (fun _ => false)
          [⟨0, some "DZ1 x"⟩, ⟨1, some "c"⟩] ⟨[], []⟩).1.flushed ∧
     (∀ q, lookupFile (split_pdf_by_dz "in.pdf" "out" (fun _ => false)
          [⟨0, some "DZ1 x"⟩, ⟨1, some "c"⟩]
          (split_pdf_by_dz "in.pdf" "out" (fun _ => false)
            [⟨0, some "DZ1 x"⟩, ⟨1, some "c"⟩] ⟨[], []⟩).1.fs).1.fs.files q =
       lookupFile (split_pdf_by_dz "in.pdf" "out" (fun _ => false)
          [⟨0, some "DZ1 x"⟩, ⟨1, some "c"⟩] ⟨[], []⟩).1.fs.files q) ∧
     (∀ d, d ∈ (split_pdf_by_dz "in.pdf" "out" (fun _ => false)
          [⟨0, some "DZ1 x"⟩, ⟨1, some "c"⟩]
          (split_pdf_by_dz "in.pdf" "out" (fun _ => false)
            [⟨0, some "DZ1 x"⟩, ⟨1, some "c"⟩] ⟨[], []⟩).1.fs).1.fs.dirs ↔
       d ∈ (split_pdf_by_dz "in.pdf" "out" (fun _ => false)
          [⟨0, some "DZ1 x"⟩, ⟨1, some "c"⟩] ⟨[], []⟩).1.fs.dirs)) :=
  ⟨by decide,
   C8_second_run_is_idempotent "in.pdf" "out" (fun _ => false)
     [⟨0, some "DZ1 x"⟩, ⟨1, some "c"⟩] ⟨[], []⟩ (fun q => rfl) (by decide)⟩

/-! ## The batch-printing loop -/

theorem printOne_foldl (backend : String → Except Unit Unit) (fp : String) :
    ∀ (fls : List String) (acc : PrintResult),
      fls.foldl (printOne backend fp) acc =
        ⟨acc.attempted ++ fls.map (joinPath fp),
         acc.total_printed +
           (fls.map (joinPath fp)).countP (fun p => print_file backend p),
         acc.failed_prints ++
           (fls.map (joinPath fp)).filter (fun p => !print_file backend p),
         acc.sleeps + fls.length⟩ := by
  intro fls
  induction fls with
  | nil =>
      intro acc
      simp
  | cons f fls ih =>
      intro acc
      rw [List.foldl_cons]
      have hstep : printOne backend fp acc f =
          if print_file backend (joinPath fp f) then
            ⟨acc.attempted ++ [joinPath fp f], acc.total_printed + 1,
             acc.failed_prints, acc.sleeps + 1⟩
          else
            ⟨acc.attempted ++ [joinPath fp f], acc.total_printed,
             acc.failed_prints ++ [joinPath fp f], acc.sleeps + 1⟩ := by
        unfold printOne
        by_cases hb : print_file backend (joinPath fp f) <;> simp [hb]
      rw [hstep]
      by_cases hb : print_file backend (joinPath fp f)
      · rw [if_pos hb, ih]
        simp only [PrintResult.mk.injEq]
        refine ⟨by simp, ?_, ?_, ?_⟩
        · simp [List.countP_cons, hb]
          omega
        · simp [List.filter_cons, hb]
        · simp [List.length_cons]
          omega
      · rw [if_neg hb, ih]
        simp only [PrintResult.mk.injEq]
        refine ⟨by simp, ?_, ?_, ?_⟩
        · simp [List.countP_cons, hb]
        · simp [List.filter_cons, hb]
        · simp [List.length_cons]
          omega

theorem printDirs_foldl (backend : String → Except Unit Unit) (base : String) :
    ∀ (es : List (String × List String)) (acc : PrintResult),
      es.foldl
        (fun acc d =>
          let folder_path := joinPath base d.1
          let pdf_files := sortStrs (d.2.filter isPdfName)
          pdf_files.foldl (printOne backend folder_path) acc) acc =
        ⟨acc.attempted ++
           (es.map (fun d => (sortStrs (d.2.filter isPdfName)).map
             (joinPath (joinPath base d.1)))).flatten,
         acc.total_printed +
           ((es.map (fun d => (sortStrs (d.2.filter isPdfName)).map
             (joinPath (joinPath base d.1)))).flatten).countP
             (fun p => print_file backend p),
         acc.failed_prints ++
           ((es.map (fun d => (sortStrs (d.2.filter isPdfName)).map
             (joinPath (joinPath base d.1)))).flatten).filter
             (fun p => !print_file backend p),
         acc.sleeps +
           ((es.map (fun d => (sortStrs (d.2.filter isPdfName)).map
             (joinPath (joinPath base d.1)))).flatten).length⟩ := by
  intro es
  induction es with
  | nil =>
      intro acc
      simp
  | cons e es ih =>
      intro acc
      rw [List.foldl_cons]
      show es.foldl _
        ((sortStrs (e.2.filter isPdfName)).foldl
          (printOne backend (joinPath base e.1)) acc) = _
      rw [ih, printOne_foldl]
      simp only [PrintResult.mk.injEq]
      refine ⟨?_, ?_, ?_, ?_⟩
      · simp [List.flatten_cons, List.append_assoc]
      · simp [List.flatten_cons, List.countP_append]
        omega
      · simp [List.flatten_cons, List.filter_append, List.append_assoc]
      · simp [List.flatten_cons, List.length_append, List.length_map]
        omega

/-- Claim C10: the batch never aborts on a failed print: `print_file` is total
(every backend failure becomes `false`), the submitted files are exactly all
`.pdf` files in sorted folder then sorted filename order — independent of
which submissions fail — each submission is followed by the fixed delay (one
sleep per file), the failed paths are exactly the collected
`failed_prints` reported in the final summary, and the success counter
counts the rest. -/
theorem C10_print_failures_never_abort_batch (base : String)
    (listing : List (String × List String))
    (backend : String → Except Unit Unit) :
    (print_pdfs_in_folders base listing backend).attempted =
      specAllPdfPaths base listing ∧
    (print_pdfs_in_folders base listing backend).failed_prints =
      (specAllPdfPaths base listing).filter
        (fun p => !print_file backend p) ∧
    (print_pdfs_in_folders base listing backend).total_printed =
      (specAllPdfPaths base listing).countP
        (fun p => print_file backend p) ∧
    (print_pdfs_in_folders base listing backend).sleeps =
      (specAllPdfPaths base listing).length := by
  unfold print_pdfs_in_folders
  rw [printDirs_foldl]
  refine ⟨?_, ?_, ?_, ?_⟩ <;> simp [specAllPdfPaths]
